import Mathlib

set_option maxHeartbeats 1000000

/-
Verification development for the vehicle-intelligence data API gateway.

The definitions below are a shallow embedding of the TypeScript source:
  - supabase/functions/vehicles/index.ts   (route dispatch, lookup handlers,
    market-value postprocessing, formatMarketValues)
  - supabase/functions/_shared/auth.ts     (in-memory and distributed
    checkRateLimit, logUsage)
The relational store is modelled as lists of rows; Postgres ILIKE is
modelled by an executable pattern matcher over characters.
-/

namespace VehicleIntel

/-- SQL LIKE pattern matching over character lists, case-insensitive
(Postgres ILIKE): a percent sign matches any sequence of characters, an
underscore matches any single character, every other character matches
itself up to case. -/
def likeMatch : List Char → List Char → Bool
  | [], s => s.isEmpty
  | '%' :: ps, s => s.tails.any (fun s2 => likeMatch ps s2)
  | '_' :: ps, s =>
    match s with
    | [] => false
    | _ :: s2 => likeMatch ps s2
  | p :: ps, s =>
    match s with
    | [] => false
    | c :: s2 => (p.toLower == c.toLower) && likeMatch ps s2

/-- Case-insensitive LIKE match on strings, as performed by the
`.ilike(column, pattern)` query filters in the source. -/
def ilike (pat s : String) : Bool := likeMatch pat.data s.data

/-- The JavaScript global-replace normalisation applied to the queried
model name: every hyphen becomes a LIKE wildcard. -/
def replaceDashes (s : String) : String :=
  String.mk (s.data.map (fun c => if c = '-' then '%' else c))

/-- A row of the `vehicle_specs` table (natural-key columns only; the
remaining spec columns play no role in the claims). -/
structure SpecRow where
  id : Nat
  year : Int
  make : String
  model : String
  trim : Option String
deriving DecidableEq, Repr

/-- A row of the `vehicle_warranties` table, linked to a spec row by
`vehicle_spec_id`. -/
structure WarrantyRow where
  vehicle_spec_id : Nat
  warranty_type : String
deriving DecidableEq, Repr

/-- A row of the `vehicle_market_values` table.  The three cents columns
are nullable INTEGER columns in the migration, hence `Option Int`. -/
structure MarketValueRow where
  year : Int
  make : String
  model : String
  trim : Option String
  condition : String
  trade_in_cents : Option Int
  private_party_cents : Option Int
  dealer_retail_cents : Option Int
deriving DecidableEq, Repr

/-- A row of the `vehicle_maintenance_schedules` table. -/
structure MaintRow where
  year : Int
  make : String
  model : String
  trim : Option String
  mileage : Int
deriving DecidableEq, Repr

/-- The relational store visible to the vehicles function: one list per
table, in insertion order. -/
structure Db where
  specs : List SpecRow
  warranties : List WarrantyRow
  marketValues : List MarketValueRow
  maintenance : List MaintRow
deriving Repr

/-- The per-condition figures object built by `formatMarketValues`. -/
structure MarketFigures where
  condition : String
  trade_in_cents : Option Int
  private_party_cents : Option Int
  dealer_retail_cents : Option Int
deriving DecidableEq, Repr

/-- Figures extracted from one market-value row, as in the object literal
inside `formatMarketValues`. -/
def figOf (v : MarketValueRow) : MarketFigures :=
  { condition := v.condition
    trade_in_cents := v.trade_in_cents
    private_party_cents := v.private_party_cents
    dealer_retail_cents := v.dealer_retail_cents }

/-- JavaScript object-key assignment `result[k] = v`: if the key is
already present its value is replaced in place, otherwise the pair is
appended (insertion order preserved). -/
def upsertCondition (acc : List (String × MarketFigures)) (k : String)
    (v : MarketFigures) : List (String × MarketFigures) :=
  if acc.any (fun p => p.1 = k) then
    acc.map (fun p => if p.1 = k then (k, v) else p)
  else acc ++ [(k, v)]

/-- `formatMarketValues` from vehicles/index.ts: fold the row list into an
object keyed by condition, later rows overwriting earlier ones. -/
def formatMarketValues (values : List MarketValueRow) :
    List (String × MarketFigures) :=
  values.foldl (fun acc v => upsertCondition acc v.condition (figOf v)) []

/-- Key lookup in the object built by `formatMarketValues`. -/
def condLookup (c : String) : List (String × MarketFigures) → Option MarketFigures
  | [] => none
  | p :: rest => if p.1 = c then some p.2 else condLookup c rest

/-- The last row of the list whose condition equals `c`, if any (used to
state the overwrite behaviour of `formatMarketValues`). -/
def lastMatch? (c : String) : List MarketValueRow → Option MarketValueRow
  | [] => none
  | v :: rest =>
    match lastMatch? c rest with
    | some w => some w
    | none => if v.condition = c then some v else none

/-- Sorted insertion by ascending mileage (model of the `order('mileage',
ascending)` clause on the maintenance queries). -/
def insertByMileage (r : MaintRow) : List MaintRow → List MaintRow
  | [] => [r]
  | x :: xs => if r.mileage ≤ x.mileage then r :: x :: xs else x :: insertByMileage r xs

/-- Sort a maintenance row list by ascending mileage. -/
def sortByMileage (l : List MaintRow) : List MaintRow := l.foldr insertByMileage []

/-- Filter applied by `handleLookup` to `vehicle_specs`: case-insensitive
make match, model match with hyphens replaced by wildcards, exact year
and, when a trim parameter is supplied, prefix-style trim match. -/
def specMatches (year : Int) (make model : String) (trim : Option String)
    (r : SpecRow) : Bool :=
  ilike make r.make && ilike (replaceDashes model) r.model &&
    (r.year = year) &&
    (match trim with
     | none => true
     | some t =>
       match r.trim with
       | none => false
       | some rt => ilike (t ++ "%") rt)

/-- Filter applied by `handleLookup` to `vehicle_market_values`. -/
def marketMatches (year : Int) (make model : String) (trim : Option String)
    (r : MarketValueRow) : Bool :=
  ilike make r.make && ilike (replaceDashes model) r.model &&
    (r.year = year) &&
    (match trim with
     | none => true
     | some t =>
       match r.trim with
       | none => false
       | some rt => ilike (t ++ "%") rt)

/-- Filter applied by `handleLookup` to `vehicle_maintenance_schedules`. -/
def maintMatches (year : Int) (make model : String) (trim : Option String)
    (r : MaintRow) : Bool :=
  ilike make r.make && ilike (replaceDashes model) r.model &&
    (r.year = year) &&
    (match trim with
     | none => true
     | some t =>
       match r.trim with
       | none => false
       | some rt => ilike (t ++ "%") rt)

/-- Specs fetched by `handleLookup`: the query's `.limit(1).single()`
returns the first matching row or null. -/
def lookupSpecs (db : Db) (year : Int) (make model : String)
    (trim : Option String) : Option SpecRow :=
  (db.specs.filter (specMatches year make model trim)).head?

/-- Warranties fetched by `handleLookup`: rows joined on
`vehicle_spec_id` when a spec row was found, else the empty list. -/
def lookupWarranties (db : Db) (year : Int) (make model : String)
    (trim : Option String) : List WarrantyRow :=
  match lookupSpecs db year make model trim with
  | some s => db.warranties.filter (fun w => w.vehicle_spec_id = s.id)
  | none => []

/-- Market-value rows fetched by `handleLookup` (no limit clause in the
source for this query). -/
def lookupMarket (db : Db) (year : Int) (make model : String)
    (trim : Option String) : List MarketValueRow :=
  db.marketValues.filter (marketMatches year make model trim)

/-- Maintenance rows fetched by `handleLookup`: ordered by ascending
mileage and limited to 50 rows. -/
def lookupMaintenance (db : Db) (year : Int) (make model : String)
    (trim : Option String) : List MaintRow :=
  (sortByMileage (db.maintenance.filter (maintMatches year make model trim))).take 50

/-- Outcome of a lookup handler after parameter validation: either the
404 not-found response or the 200 success payload. -/
inductive LookupOutcome where
  | notFound
  | success (specs : Option SpecRow) (warranty : List WarrantyRow)
      (market_values : List (String × MarketFigures)) (maintenance : List MaintRow)
deriving DecidableEq, Repr

/-- `handleLookup` from vehicles/index.ts, after parameter parsing: fetch
the four categories (the trim filter, when present, constrains every
query, with no fallback) and return 404 exactly when all four are empty. -/
def handleLookup (db : Db) (year : Int) (make model : String)
    (trim : Option String) : LookupOutcome :=
  let specs := lookupSpecs db year make model trim
  let warranties := lookupWarranties db year make model trim
  let marketValues := lookupMarket db year make model trim
  let maintenance := lookupMaintenance db year make model trim
  if specs = none ∧ warranties = [] ∧ marketValues = [] ∧ maintenance = [] then
    .notFound
  else
    .success specs warranties (formatMarketValues marketValues) maintenance

/-- Trim cleanup in `handleVinLookup`: a decoded trim is used only when
truthy (non-empty), and only the part before the first slash, with
surrounding whitespace removed, is kept. -/
def vinPrimaryTrim (decodedTrim : Option String) : Option String :=
  match decodedTrim with
  | none => none
  | some t =>
    if t = "" then none
    else some (String.trim ((t.splitOn "/").headD t))

/-- `handleVinLookup` from vehicles/index.ts after a successful VIN
decode, as a function of the decoded year/make/model and the cleaned
primary trim: each category first tries the trim-filtered query and falls
back to the trim-agnostic one when it produced nothing; the response is
always a success payload. -/
def vinLookupCore (db : Db) (year : Int) (make model : String)
    (primaryTrim : Option String) : LookupOutcome :=
  let specsWithTrim :=
    match primaryTrim with
    | some _ => (db.specs.filter (specMatches year make model primaryTrim)).head?
    | none => none
  let specs :=
    match specsWithTrim with
    | some s => some s
    | none => (db.specs.filter (specMatches year make model none)).head?
  let warranties :=
    match specs with
    | some s => db.warranties.filter (fun w => w.vehicle_spec_id = s.id)
    | none => []
  let marketWithTrim :=
    match primaryTrim with
    | some _ => db.marketValues.filter (marketMatches year make model primaryTrim)
    | none => []
  let marketValues :=
    if marketWithTrim.isEmpty then
      (db.marketValues.filter (marketMatches year make model none)).take 20
    else marketWithTrim
  let maintWithTrim :=
    match primaryTrim with
    | some _ =>
      (sortByMileage (db.maintenance.filter (maintMatches year make model primaryTrim))).take 50
    | none => []
  let maintenance :=
    if maintWithTrim.isEmpty then
      (sortByMileage (db.maintenance.filter (maintMatches year make model none))).take 50
    else maintWithTrim
  .success specs warranties (formatMarketValues marketValues) maintenance

/-- `handleVinLookup` after decode, taking the raw decoded trim string. -/
def vinLookup (db : Db) (year : Int) (make model : String)
    (decodedTrim : Option String) : LookupOutcome :=
  vinLookupCore db year make model (vinPrimaryTrim decodedTrim)

/-- JavaScript `Math.ceil(x / 1000)` on an integer millisecond count
(the ceiling of the exact division, via floor division by 1000). -/
def jsCeil1000 (x : Int) : Int := -((-x) / 1000)

/-- Addition guarded by JavaScript truthiness, as in
`if (conditionData.trade_in_cents) conditionData.trade_in_cents += adjustment`:
a null or zero figure is left unchanged. -/
def adjustField (v : Option Int) (adjustment : Int) : Option Int :=
  match v with
  | none => none
  | some x => if x ≠ 0 then some (x + adjustment) else some x

/-- Per-condition adjustment step of `handleMarketValue`. -/
def adjustFigures (f : MarketFigures) (adjustment : Int) : MarketFigures :=
  { f with
    trade_in_cents := adjustField f.trade_in_cents adjustment
    private_party_cents := adjustField f.private_party_cents adjustment
    dealer_retail_cents := adjustField f.dealer_retail_cents adjustment }

/-- The adjustment loop of `handleMarketValue`, applied to every
condition of the formatted result. -/
def applyAdjustment (result : List (String × MarketFigures)) (adjustment : Int) :
    List (String × MarketFigures) :=
  result.map (fun p => (p.1, adjustFigures p.2 adjustment))

/-- `Math.round(mileageDiff * -0.10 * 100)` from `handleMarketValue`,
over exact rationals (JavaScript `Math.round` rounds halves up, as does
Mathlib `round`). -/
def mileageAdjustment (mileageInt vehicleAge : Int) : Int :=
  round ((((mileageInt - vehicleAge * 12000 : Int) : ℚ)) * (-(1 / 10) : ℚ) * 100)

/-- Market-value postprocessing of `handleMarketValue` (lines 589-606 of
vehicles/index.ts): format the rows by condition, then, when a mileage
parameter is present and the spec year is truthy, add the mileage
adjustment to every truthy cents figure. -/
def marketValueResponse (rows : List MarketValueRow) (mileage : Option Int)
    (specYear currentYear : Int) : List (String × MarketFigures) :=
  let result := formatMarketValues rows
  match mileage with
  | none => result
  | some mileageInt =>
    if specYear ≠ 0 then
      let vehicleAge := currentYear - specYear
      let adjustment := mileageAdjustment mileageInt vehicleAge
      applyAdjustment result adjustment
    else result

/-- Entry of the in-memory rate-limit map in _shared/auth.ts:
`{ count, windowStart }`. -/
structure RateEntry where
  count : Nat
  windowStart : Int
deriving DecidableEq, Repr

/-- The in-memory `rateLimitMap`, keyed by organization id. -/
def RateMap := String → Option RateEntry

/-- Result of a rate-limit check: `{ allowed, retryAfter? }`. -/
structure RateResult where
  allowed : Bool
  retryAfter : Option Int := none
deriving DecidableEq, Repr

namespace InMemory

/-- The in-memory `checkRateLimit` of _shared/auth.ts: start a fresh
window (count 1, always allowed) when the organization has no entry or
its window is older than 60000 ms; otherwise deny with
`retryAfter = ceil((60000 - elapsed) / 1000)` once the count has reached
the limit, and increment and allow below it. -/
def checkRateLimit (m : RateMap) (organizationId : String) (limit : Int)
    (now : Int) : RateResult × RateMap :=
  let windowMs : Int := 60000
  match m organizationId with
  | none =>
    ({ allowed := true }, Function.update m organizationId (some ⟨1, now⟩))
  | some current =>
    if now - current.windowStart > windowMs then
      ({ allowed := true }, Function.update m organizationId (some ⟨1, now⟩))
    else if (current.count : Int) ≥ limit then
      ({ allowed := false
         retryAfter := some (jsCeil1000 (windowMs - (now - current.windowStart))) }, m)
    else
      ({ allowed := true },
        Function.update m organizationId (some ⟨current.count + 1, current.windowStart⟩))

/-- A sequence of rate-limit checks for one organization at the given
request times, threading the map through. -/
def runRequests (m : RateMap) (organizationId : String) (limit : Int) :
    List Int → List RateResult × RateMap
  | [] => ([], m)
  | t :: ts =>
    let step := checkRateLimit m organizationId limit t
    let rest := runRequests step.2 organizationId limit ts
    (step.1 :: rest.1, rest.2)

end InMemory

/-- Result object of the Upstash `rateLimiter.limit` call:
`{ success, reset, remaining }`. -/
structure UpstashResult where
  success : Bool
  reset : Int
  remaining : Nat
deriving DecidableEq, Repr

namespace Distributed

/-- The distributed `checkRateLimit` of _shared/auth.ts: the counter
service call either throws or returns a result; a throw is caught and
the request is allowed (fail open); a non-success result is denied with
`retryAfter = max 1 (ceil((reset - now) / 1000))`. -/
def checkRateLimit (call : Except String UpstashResult) (now : Int) :
    RateResult :=
  match call with
  | .error _ => { allowed := true }
  | .ok r =>
    if !r.success then
      { allowed := false, retryAfter := some (max 1 (jsCeil1000 (r.reset - now))) }
    else
      { allowed := true }

end Distributed

/-- `logUsage` of _shared/auth.ts: run the per-event insert, then the
daily-aggregate increment (skipped when the insert throws), and catch
and discard any fault, so the call itself never throws. -/
def logUsage (insertUsageLog incrementDailyUsage : Except String Unit) :
    Except String Unit :=
  match (do insertUsageLog; incrementDailyUsage : Except String Unit) with
  | .ok _ => .ok ()
  | .error _ => .ok ()

/-- HTTP methods of interest to the dispatcher (OPTIONS preflight is
answered by the CORS layer before the code modelled here runs). -/
inductive Method where
  | get | post | put | del | patch | head
deriving DecidableEq, Repr

/-- The slice of `authenticateRequest`'s result that the dispatcher
reads: validity, organization id and per-minute rate limit. -/
structure AuthOutcome where
  isValid : Bool
  organizationId : String
  rateLimit : Int
deriving Repr

/-- Responses the `Deno.serve` handler in vehicles/index.ts can produce
before or instead of routing: 401 unauthorized, 429 rate-limited,
405 method-not-allowed, or the routed handler outcome. -/
inductive GatewayResponse where
  | unauthorized
  | rateLimited (retryAfter : Int)
  | methodNotAllowed
  | routed (out : LookupOutcome)
deriving DecidableEq, Repr

/-- HTTP status of each gateway response, per _shared/response.ts. -/
def statusOf : GatewayResponse → Nat
  | .unauthorized => 401
  | .rateLimited _ => 429
  | .methodNotAllowed => 405
  | .routed .notFound => 404
  | .routed (.success ..) => 200

/-- The gate sequence of the `Deno.serve` handler: authenticate first
(401 on failure), then check the in-memory rate limit (429 on denial),
then reject any method other than GET with 405, and only then dispatch
to a route handler. -/
def serve (auth : AuthOutcome) (m : RateMap) (now : Int) (method : Method)
    (dispatch : LookupOutcome) : GatewayResponse × RateMap :=
  if !auth.isValid then (.unauthorized, m)
  else
    let check := InMemory.checkRateLimit m auth.organizationId auth.rateLimit now
    if !check.1.allowed then (.rateLimited (check.1.retryAfter.getD 0), check.2)
    else if method ≠ .get then (.methodNotAllowed, check.2)
    else (.routed dispatch, check.2)

/-- Tail of the `Deno.serve` handler: with the response already
determined, await `logUsage` (whose faults would propagate out of the
handler if it threw) and then return the response. -/
def finishRequest (response : GatewayResponse)
    (insertUsageLog incrementDailyUsage : Except String Unit) :
    Except String GatewayResponse := do
  let _ ← logUsage insertUsageLog incrementDailyUsage
  pure response

/-- Example store: a single 2024 Toyota Camry XSE spec row and nothing
else, used to exercise the trim path of the YMMT lookup. -/
def dbCamry : Db :=
  { specs := [⟨1, 2024, "Toyota", "Camry", some "XSE"⟩]
    warranties := [], marketValues := [], maintenance := [] }

/-- Example store: a single spec row whose model is stored with a
hyphen, as in "CR-V". -/
def dbCRV : Db :=
  { specs := [⟨1, 2024, "Honda", "CR-V", some "EX"⟩]
    warranties := [], marketValues := [], maintenance := [] }

/-- Example store with no rows in any table. -/
def emptyDb : Db :=
  { specs := [], warranties := [], marketValues := [], maintenance := [] }

/-- Example store for the VIN trim fallback: a single 2003 Honda Accord
LX spec row. -/
def dbAccord : Db :=
  { specs := [⟨1, 2003, "Honda", "Accord", some "LX"⟩]
    warranties := [], marketValues := [], maintenance := [] }

/-- A stored market-value row whose trade-in figure is zero — a value
the migration's nullable, unconstrained INTEGER column permits. -/
def zeroTradeInRow : MarketValueRow :=
  { year := 2025, make := "Toyota", model := "Camry", trim := some "XSE"
    condition := "Clean"
    trade_in_cents := some 0
    private_party_cents := some 1000000
    dealer_retail_cents := some 2000000 }

/-
Helper lemmas shared by the claim theorems.
-/

/-- The mileage adjustment of `handleMarketValue` evaluates exactly:
rounding the rational `(M - 12000A) * -0.10 * 100` yields the integer
`-10 * (M - 12000A)`. -/
theorem mileageAdjustment_eq (M A : Int) :
    mileageAdjustment M A = -10 * (M - 12000 * A) := by
  unfold mileageAdjustment
  have h : (((M - A * 12000 : Int) : ℚ)) * (-(1 / 10) : ℚ) * 100
      = ((-10 * (M - 12000 * A) : Int) : ℚ) := by
    push_cast
    ring
  rw [h, round_intCast]

/-- In-memory `checkRateLimit` on an organization with no window entry:
allowed, counter reset to 1. -/
theorem checkRateLimit_fresh (m : RateMap) (org : String) (limit now : Int)
    (h : m org = none) :
    InMemory.checkRateLimit m org limit now
      = ({ allowed := true }, Function.update m org (some ⟨1, now⟩)) := by
  simp [InMemory.checkRateLimit, h]

/-- In-memory `checkRateLimit` inside a live window and below the limit:
allowed, counter incremented. -/
theorem checkRateLimit_below (m : RateMap) (org : String) (limit now : Int)
    (e : RateEntry) (h : m org = some e) (hw : ¬ now - e.windowStart > 60000)
    (hc : ¬ (e.count : Int) ≥ limit) :
    InMemory.checkRateLimit m org limit now
      = ({ allowed := true },
          Function.update m org (some ⟨e.count + 1, e.windowStart⟩)) := by
  simp [InMemory.checkRateLimit, h, hw, hc]

/-- In-memory `checkRateLimit` inside a live window at or above the
limit: denied with the ceiling retry hint, map unchanged. -/
theorem checkRateLimit_denied (m : RateMap) (org : String) (limit now : Int)
    (e : RateEntry) (h : m org = some e) (hw : ¬ now - e.windowStart > 60000)
    (hc : (e.count : Int) ≥ limit) :
    InMemory.checkRateLimit m org limit now
      = ({ allowed := false
           retryAfter := some (jsCeil1000 (60000 - (now - e.windowStart))) }, m) := by
  simp [InMemory.checkRateLimit, h, hw, hc]

/-- `runRequests` distributes over list append. -/
theorem runRequests_append (org : String) (limit : Int) (xs ys : List Int) :
    ∀ m : RateMap,
      InMemory.runRequests m org limit (xs ++ ys)
        = ((InMemory.runRequests m org limit xs).1
             ++ (InMemory.runRequests (InMemory.runRequests m org limit xs).2
                  org limit ys).1,
           (InMemory.runRequests (InMemory.runRequests m org limit xs).2
              org limit ys).2) := by
  induction xs with
  | nil => intro m; simp [InMemory.runRequests]
  | cons x xs ih => intro m; simp [InMemory.runRequests, ih]

/-- As long as the counter stays below the limit, every request in a
live window is allowed and the counter advances by the number of
requests. -/
theorem runRequests_all_allowed (org : String) (limit : Int) (ts : List Int)
    (t0 : Int) :
    ∀ (m : RateMap) (c : Nat), m org = some ⟨c, t0⟩ →
      (∀ t ∈ ts, t - t0 ≤ 60000) →
      ((c : Int) + ts.length ≤ limit) →
      InMemory.runRequests m org limit ts
        = (List.replicate ts.length { allowed := true },
            Function.update m org (some ⟨c + ts.length, t0⟩)) := by
  induction ts with
  | nil =>
    intro m c hm _ _
    simp only [InMemory.runRequests, List.length_nil, List.replicate_zero,
      Nat.add_zero]
    rw [← hm, Function.update_eq_self]
  | cons t ts ih =>
    intro m c hm hts hlim
    have hw : ¬ t - t0 > 60000 := by
      have := hts t (by simp)
      omega
    have hc : ¬ ((c : Int) ≥ limit) := by
      simp only [List.length_cons] at hlim
      push_cast at hlim
      omega
    simp only [InMemory.runRequests]
    rw [checkRateLimit_below m org limit t ⟨c, t0⟩ hm hw hc]
    rw [ih (Function.update m org (some ⟨c + 1, t0⟩)) (c + 1)
      (Function.update_same org (some ⟨c + 1, t0⟩) m)
      (fun t2 ht2 => hts t2 (by simp [ht2]))
      (by simp only [List.length_cons] at hlim; push_cast at hlim ⊢; omega)]
    rw [Function.update_idem]
    simp only [List.length_cons, List.replicate_succ]
    have harith : c + 1 + ts.length = c + (ts.length + 1) := by omega
    rw [harith]

/-- Looking up key `k` after replacing every key-`k` entry by `(k, v)`:
some `v` when a key-`k` entry existed, none otherwise. -/
theorem condLookup_map_replace_self (k : String) (v : MarketFigures) :
    ∀ acc : List (String × MarketFigures),
      condLookup k (acc.map (fun p => if p.1 = k then (k, v) else p))
        = (condLookup k acc).map (fun _ => v) := by
  intro acc
  induction acc with
  | nil => rfl
  | cons p acc ih =>
    by_cases hp : p.1 = k
    · simp [condLookup, hp]
    · simp [condLookup, hp, ih]

/-- A `condLookup` succeeds exactly when some entry carries the key. -/
theorem condLookup_isSome_iff_any (c : String) :
    ∀ acc : List (String × MarketFigures),
      (condLookup c acc).isSome = acc.any (fun p => p.1 = c) := by
  intro acc
  induction acc with
  | nil => rfl
  | cons p acc ih =>
    by_cases hp : p.1 = c
    · simp [condLookup, hp]
    · simp [condLookup, hp, ih]

/-- Replacing key-`k` entries does not change lookups at other keys. -/
theorem condLookup_map_replace_other (k c : String) (v : MarketFigures)
    (hck : c ≠ k) :
    ∀ acc : List (String × MarketFigures),
      condLookup c (acc.map (fun p => if p.1 = k then (k, v) else p))
        = condLookup c acc := by
  intro acc
  induction acc with
  | nil => rfl
  | cons p acc ih =>
    by_cases hp : p.1 = k
    · have hpc : ¬ p.1 = c := by
        rw [hp]
        exact fun hkc => hck hkc.symm
      have hkc : ¬ k = c := fun hkc => hck hkc.symm
      simp [condLookup, hp, hpc, hkc, ih]
    · simp [condLookup, hp, ih]

/-- Lookup in a list extended by one final pair. -/
theorem condLookup_append_single (c k : String) (v : MarketFigures) :
    ∀ acc : List (String × MarketFigures),
      condLookup c (acc ++ [(k, v)])
        = match condLookup c acc with
          | some w => some w
          | none => if k = c then some v else none := by
  intro acc
  induction acc with
  | nil => rfl
  | cons p acc ih =>
    by_cases hp : p.1 = c
    · simp [condLookup, hp]
    · simp [condLookup, hp, ih]

/-- Lookup after the JavaScript-style upsert: key `k` now maps to `v`,
every other key is unchanged. -/
theorem condLookup_upsert (c k : String) (v : MarketFigures)
    (acc : List (String × MarketFigures)) :
    condLookup c (upsertCondition acc k v)
      = if k = c then some v else condLookup c acc := by
  unfold upsertCondition
  by_cases hany : acc.any (fun p => p.1 = k) = true
  · rw [if_pos hany]
    by_cases hck : c = k
    · subst hck
      obtain ⟨w, hw⟩ := Option.isSome_iff_exists.mp
        (by rw [condLookup_isSome_iff_any]; exact hany)
      rw [condLookup_map_replace_self, hw, if_pos rfl]
      rfl
    · have hkc : ¬ k = c := fun h => hck h.symm
      rw [condLookup_map_replace_other k c v hck, if_neg hkc]
  · rw [if_neg hany, condLookup_append_single]
    have hnone : condLookup k acc = none := by
      rw [← Option.not_isSome_iff_eq_none, condLookup_isSome_iff_any]
      simpa using hany
    by_cases hck : k = c
    · subst hck
      rw [hnone]
    · cases h : condLookup c acc with
      | some w => simp [if_neg hck]
      | none => simp [if_neg hck]

/-- The upsert preserves the key list when the key exists, and appends
it otherwise. -/
theorem keys_upsert (acc : List (String × MarketFigures)) (k : String)
    (v : MarketFigures) :
    (upsertCondition acc k v).map Prod.fst
      = if acc.any (fun p => p.1 = k) then acc.map Prod.fst
        else acc.map Prod.fst ++ [k] := by
  unfold upsertCondition
  by_cases hany : acc.any (fun p => p.1 = k) = true
  · rw [if_pos hany, if_pos hany, List.map_map]
    have hfun : (Prod.fst ∘ fun p : String × MarketFigures =>
        if p.1 = k then (k, v) else p) = Prod.fst := by
      funext p
      by_cases hp : p.1 = k <;> simp [hp]
    rw [hfun]
  · rw [if_neg hany, if_neg hany]
    simp

/-- The fold in `formatMarketValues` keeps the condition keys free of
duplicates. -/
theorem formatMarketValues_keys_nodup_aux :
    ∀ (vs : List MarketValueRow) (acc : List (String × MarketFigures)),
      (acc.map Prod.fst).Nodup →
      ((vs.foldl (fun a v => upsertCondition a v.condition (figOf v)) acc).map
        Prod.fst).Nodup := by
  intro vs
  induction vs with
  | nil => intro acc h; exact h
  | cons v vs ih =>
    intro acc h
    simp only [List.foldl_cons]
    apply ih
    rw [keys_upsert]
    by_cases hany : acc.any (fun p => p.1 = v.condition) = true
    · rw [if_pos hany]
      exact h
    · rw [if_neg hany]
      rw [List.nodup_append]
      refine ⟨h, List.nodup_singleton _, ?_⟩
      intro a ha hak
      simp only [List.mem_singleton] at hak
      subst hak
      obtain ⟨p, hp, hpeq⟩ := List.mem_map.mp ha
      apply hany
      rw [List.any_eq_true]
      exact ⟨p, hp, by simp [hpeq]⟩

/-- The fold in `formatMarketValues` looks up each condition to the
figures of the last matching row, falling back to the accumulator. -/
theorem formatMarketValues_lookup_aux (c : String) :
    ∀ (vs : List MarketValueRow) (acc : List (String × MarketFigures)),
      condLookup c
          (vs.foldl (fun a v => upsertCondition a v.condition (figOf v)) acc)
        = match lastMatch? c vs with
          | some w => some (figOf w)
          | none => condLookup c acc := by
  intro vs
  induction vs with
  | nil => intro acc; rfl
  | cons v vs ih =>
    intro acc
    simp only [List.foldl_cons, lastMatch?]
    rw [ih]
    cases hlast : lastMatch? c vs with
    | some w => rfl
    | none =>
      simp only []
      rw [condLookup_upsert]
      by_cases hvc : v.condition = c <;> simp [hvc]

/-
Claim theorems.
-/

/-- Reduction of `marketValueResponse` when a mileage parameter is
present and the spec year is non-zero. -/
theorem marketValueResponse_some (rows : List MarketValueRow)
    (M specYear currentYear : Int) (h : specYear ≠ 0) :
    marketValueResponse rows (some M) specYear currentYear
      = applyAdjustment (formatMarketValues rows)
          (mileageAdjustment M (currentYear - specYear)) := by
  show (if specYear ≠ 0 then
      applyAdjustment (formatMarketValues rows)
        (mileageAdjustment M (currentYear - specYear))
    else formatMarketValues rows) = _
  rw [if_pos h]

/-- C4: starting with no window entry, L = ts.length + 1 requests inside
a single 60-second window all succeed under a per-minute limit of L,
and the (L+1)-th request in the same window is denied with
retryAfter = ceil((60000 - elapsed) / 1000) milliseconds-to-seconds,
which is strictly positive. -/
theorem c4_limit_requests_then_denied (m : RateMap) (org : String)
    (ts : List Int) (t0 tl : Int)
    (hfresh : m org = none)
    (hts : ∀ t ∈ ts, t0 ≤ t ∧ t - t0 < 60000)
    (htl0 : t0 ≤ tl) (htl : tl - t0 < 60000) :
    (InMemory.runRequests m org ((ts.length : Int) + 1) (t0 :: (ts ++ [tl]))).1
      = List.replicate (ts.length + 1) { allowed := true }
          ++ [{ allowed := false
                retryAfter := some (jsCeil1000 (60000 - (tl - t0))) }] ∧
    0 < jsCeil1000 (60000 - (tl - t0)) := by
  have hpos : 0 < jsCeil1000 (60000 - (tl - t0)) := by
    unfold jsCeil1000
    omega
  refine ⟨?_, hpos⟩
  simp only [InMemory.runRequests]
  rw [checkRateLimit_fresh m org ((ts.length : Int) + 1) t0 hfresh]
  rw [runRequests_append org ((ts.length : Int) + 1) ts [tl]
    (Function.update m org (some ⟨1, t0⟩))]
  rw [runRequests_all_allowed org ((ts.length : Int) + 1) ts t0
    (Function.update m org (some ⟨1, t0⟩)) 1
    (Function.update_same org (some ⟨1, t0⟩) m)
    (fun t ht => by have := hts t ht; omega)
    (by push_cast; omega)]
  simp only [InMemory.runRequests]
  rw [checkRateLimit_denied
    (Function.update (Function.update m org (some ⟨1, t0⟩)) org
      (some ⟨1 + ts.length, t0⟩))
    org ((ts.length : Int) + 1) tl ⟨1 + ts.length, t0⟩
    (Function.update_same org (some (⟨1 + ts.length, t0⟩ : RateEntry))
      (Function.update m org (some ⟨1, t0⟩)))
    (by simp only []; omega)
    (by simp only []; push_cast; omega)]
  simp [List.replicate_succ]

/-- Witness for C4 with limit 2: two requests at 0 ms and 5 ms succeed
and the third at 100 ms is denied with retryAfter 60. -/
theorem c4_limit_requests_then_denied_witness :
    (InMemory.runRequests (fun _ => none) "org_1" (([5].length : Int) + 1)
        (0 :: ([5] ++ [100]))).1
      = List.replicate ([5].length + 1) { allowed := true }
          ++ [{ allowed := false
                retryAfter := some (jsCeil1000 (60000 - (100 - 0))) }] ∧
    0 < jsCeil1000 (60000 - (100 - 0)) :=
  c4_limit_requests_then_denied (fun _ => none) "org_1" [5] 0 100 rfl
    (by decide) (by decide) (by decide)

/-- C5: any fault raised while recording usage — whether the per-event
insert or the daily-aggregate increment throws — is caught and
discarded by `logUsage`, and the HTTP response already determined for
the request is returned unchanged by the handler tail. -/
theorem c5_usage_fault_preserves_response (response : GatewayResponse)
    (insertUsageLog incrementDailyUsage : Except String Unit) :
    finishRequest response insertUsageLog incrementDailyUsage = .ok response := by
  unfold finishRequest logUsage
  cases insertUsageLog <;> cases incrementDailyUsage <;> rfl

/-- C6: in the distributed strategy, a failing counter-service call
makes `checkRateLimit` return allowed — the limiter fails open. -/
theorem c6_distributed_fails_open (err : String) (now : Int) :
    (Distributed.checkRateLimit (.error err) now).allowed = true := rfl

/-- C9: whenever the organization has no window entry, or its stored
window is older than 60 seconds, the in-memory `checkRateLimit` allows
the request and resets the counter to 1, for every limit value
including zero and negative ones. -/
theorem c9_fresh_window_always_allows (m : RateMap) (organizationId : String)
    (limit now : Int)
    (h : m organizationId = none ∨
      ∃ e, m organizationId = some e ∧ now - e.windowStart > 60000) :
    (InMemory.checkRateLimit m organizationId limit now).1 = { allowed := true } ∧
    (InMemory.checkRateLimit m organizationId limit now).2 organizationId
      = some ⟨1, now⟩ := by
  unfold InMemory.checkRateLimit
  rcases h with h | ⟨e, he, hw⟩
  · rw [h]
    simp [Function.update_same]
  · rw [he]
    simp only [hw, if_pos]
    simp [Function.update_same]

/-- Witness for C9 at a negative limit and an empty map. -/
theorem c9_fresh_window_always_allows_witness :
    (InMemory.checkRateLimit (fun _ => none) "org_1" (-3) 1000).1
      = { allowed := true } ∧
    (InMemory.checkRateLimit (fun _ => none) "org_1" (-3) 1000).2 "org_1"
      = some ⟨1, 1000⟩ :=
  c9_fresh_window_always_allows (fun _ => none) "org_1" (-3) 1000 (Or.inl rfl)

/-- C8 (amended): a request that has passed authentication and the rate
limiter and whose method is not GET receives the method_not_allowed
response with status 405. -/
theorem c8_authenticated_non_get_is_405 (auth : AuthOutcome) (m : RateMap)
    (now : Int) (method : Method) (dispatch : LookupOutcome)
    (hv : auth.isValid = true)
    (hrl : (InMemory.checkRateLimit m auth.organizationId auth.rateLimit now).1.allowed
      = true)
    (hm : method ≠ .get) :
    (serve auth m now method dispatch).1 = .methodNotAllowed ∧
    statusOf (serve auth m now method dispatch).1 = 405 := by
  unfold serve
  simp [hv, hrl, hm, statusOf]

/-- Witness for C8 (amended): a POST with valid credentials and a fresh
rate window is answered 405. -/
theorem c8_authenticated_non_get_is_405_witness :
    (serve ⟨true, "org_1", 10⟩ (fun _ => none) 0 .post .notFound).1
      = .methodNotAllowed ∧
    statusOf (serve ⟨true, "org_1", 10⟩ (fun _ => none) 0 .post .notFound).1 = 405 :=
  c8_authenticated_non_get_is_405 ⟨true, "org_1", 10⟩ (fun _ => none) 0 .post
    .notFound rfl rfl (by decide)

/-- C2 (amended): when a mileage parameter accompanies the request and
the spec year is non-zero, the adjustment applied is the single value
`-10 * (M - 12000 * A)` cents — the exact rounding of
`(M - 12000A) * -0.10` dollars to cents — and it is added uniformly to
every condition of the result, but only to those cents figures that are
present and non-zero; zero or missing figures are left unchanged. -/
theorem c2_adjustment_on_truthy_figures (rows : List MarketValueRow)
    (M specYear currentYear : Int) (h : specYear ≠ 0) :
    mileageAdjustment M (currentYear - specYear)
      = -10 * (M - 12000 * (currentYear - specYear)) ∧
    marketValueResponse rows (some M) specYear currentYear
      = applyAdjustment (formatMarketValues rows)
          (-10 * (M - 12000 * (currentYear - specYear))) ∧
    (∀ x a : Int, adjustField (some x) a = if x = 0 then some x else some (x + a)) ∧
    (∀ a : Int, adjustField none a = none) := by
  refine ⟨mileageAdjustment_eq M _, ?_, ?_, fun a => rfl⟩
  · rw [marketValueResponse_some rows M specYear currentYear h, mileageAdjustment_eq]
  · intro x a
    unfold adjustField
    by_cases hx : x = 0 <;> simp [hx]

/-- Witness for C2 (amended) on a store with one Clean-condition row. -/
theorem c2_adjustment_on_truthy_figures_witness :
    mileageAdjustment 50000 (2025 - 2020)
      = -10 * (50000 - 12000 * (2025 - 2020)) ∧
    marketValueResponse [zeroTradeInRow] (some 50000) 2020 2025
      = applyAdjustment (formatMarketValues [zeroTradeInRow])
          (-10 * (50000 - 12000 * (2025 - 2020))) ∧
    (∀ x a : Int, adjustField (some x) a = if x = 0 then some x else some (x + a)) ∧
    (∀ a : Int, adjustField none a = none) :=
  c2_adjustment_on_truthy_figures [zeroTradeInRow] 50000 2020 2025 (by decide)

/-- C2 counterexample: for a present condition whose stored trade-in
figure is zero, the adjustment (here -500000 cents) is added to the
private-party and dealer-retail figures but not to the trade-in figure,
so the claim that it is added to all three figures of every present
condition fails. -/
theorem c2_counterexample_zero_figure_skipped :
    marketValueResponse [zeroTradeInRow] (some 50000) 2025 2025
      = [("Clean", ⟨"Clean", some 0, some 500000, some 1500000⟩)] ∧
    mileageAdjustment 50000 (2025 - 2025) = -500000 ∧
    some (0 : Int) ≠ some ((0 : Int) + (-500000)) := by
  have hadj : mileageAdjustment 50000 (2025 - 2025) = -500000 := by
    rw [mileageAdjustment_eq]
    decide
  refine ⟨?_, hadj, by decide⟩
  rw [marketValueResponse_some [zeroTradeInRow] 50000 2025 2025 (by decide), hadj]
  decide

/-- C3 (amended): a lookup model of "CR-V" matches stored rows spelled
either "CR-V" or "CR V" (the query's hyphen becomes a wildcard), and on
rows stored as "CR V" a query for "CR V" agrees with it; but a query of
"CR V" does not match a row stored as "CR-V", so the two spellings are
only equivalent in the hyphenated-query direction. -/
theorem c3_hyphen_query_matches_both_spellings (r : SpecRow) (y : Int)
    (mk : String) (hy : r.year = y) (hmk : ilike mk r.make = true) :
    (r.model = "CR V" →
      specMatches y mk "CR-V" none r = true ∧
      specMatches y mk "CR V" none r = true) ∧
    (r.model = "CR-V" →
      specMatches y mk "CR-V" none r = true ∧
      specMatches y mk "CR V" none r = false) := by
  constructor <;> intro hmo <;> constructor <;>
    simp [specMatches, hy, hmk, hmo] <;> decide

/-- Witness for C3 (amended) on a row stored as "CR V". -/
theorem c3_hyphen_query_matches_both_spellings_witness :
    ((⟨1, 2024, "Honda", "CR V", none⟩ : SpecRow).model = "CR V" →
      specMatches 2024 "Honda" "CR-V" none ⟨1, 2024, "Honda", "CR V", none⟩ = true ∧
      specMatches 2024 "Honda" "CR V" none ⟨1, 2024, "Honda", "CR V", none⟩ = true) ∧
    ((⟨1, 2024, "Honda", "CR V", none⟩ : SpecRow).model = "CR-V" →
      specMatches 2024 "Honda" "CR-V" none ⟨1, 2024, "Honda", "CR V", none⟩ = true ∧
      specMatches 2024 "Honda" "CR V" none ⟨1, 2024, "Honda", "CR V", none⟩ = false) :=
  c3_hyphen_query_matches_both_spellings ⟨1, 2024, "Honda", "CR V", none⟩ 2024
    "Honda" rfl (by decide)

/-- C3 counterexample: against a store holding one row whose model is
spelled "CR-V", the lookup for model "CR-V" returns that record while
the lookup for model "CR V" returns not-found — the two queries do not
return the same record for a hyphen-spelled stored row. -/
theorem c3_counterexample_space_query_misses_hyphen_row :
    handleLookup dbCRV 2024 "Honda" "CR-V" none
      = .success (some ⟨1, 2024, "Honda", "CR-V", some "EX"⟩) [] [] [] ∧
    handleLookup dbCRV 2024 "Honda" "CR V" none = .notFound := by
  decide

/-- C1 (amended): the VIN-seeded lookup falls back when its trim matches
zero spec, market-value, and maintenance rows: the result equals the
same lookup with no trim at all (and is a success payload, never a
404). The query-parameter lookup has no such fallback (see the
counterexample). -/
theorem c1_vin_trim_fallback (db : Db) (year : Int) (make model pt : String)
    (h1 : db.specs.filter (specMatches year make model (some pt)) = [])
    (h2 : db.marketValues.filter (marketMatches year make model (some pt)) = [])
    (h3 : db.maintenance.filter (maintMatches year make model (some pt)) = []) :
    vinLookupCore db year make model (some pt)
      = vinLookupCore db year make model none := by
  unfold vinLookupCore
  rw [h1, h2, h3]
  simp [sortByMileage]

/-- Witness for C1 (amended): an Accord store where the trim "ZZZ"
matches nothing. -/
theorem c1_vin_trim_fallback_witness :
    vinLookupCore dbAccord 2003 "Honda" "Accord" (some "ZZZ")
      = vinLookupCore dbAccord 2003 "Honda" "Accord" none :=
  c1_vin_trim_fallback dbAccord 2003 "Honda" "Accord" "ZZZ" (by decide) rfl rfl

/-- C1 counterexample: in the query-parameter lookup, a trim that
matches zero rows yields a 404 even though the same year/make/model
without trim has data — the claimed fallback does not happen there. -/
theorem c1_counterexample_lookup_trim_404 :
    handleLookup dbCamry 2024 "Toyota" "Camry" (some "ZZZ") = .notFound ∧
    handleLookup dbCamry 2024 "Toyota" "Camry" none
      = .success (some ⟨1, 2024, "Toyota", "Camry", some "XSE"⟩) [] [] [] := by
  decide

/-- C7 (amended): the query-parameter lookup returns not-found exactly
when the fetched specs, warranty, market-value, and maintenance
categories are all empty, and otherwise succeeds reporting exactly
those categories (empty ones as empty). The VIN lookup instead always
succeeds once decoding succeeds (see the counterexample). -/
theorem c7_lookup_notfound_iff_all_empty (db : Db) (year : Int)
    (make model : String) (trim : Option String) :
    (handleLookup db year make model trim = .notFound ↔
      lookupSpecs db year make model trim = none ∧
      lookupWarranties db year make model trim = [] ∧
      lookupMarket db year make model trim = [] ∧
      lookupMaintenance db year make model trim = []) ∧
    (handleLookup db year make model trim = .notFound ∨
      handleLookup db year make model trim
        = .success (lookupSpecs db year make model trim)
            (lookupWarranties db year make model trim)
            (formatMarketValues (lookupMarket db year make model trim))
            (lookupMaintenance db year make model trim)) := by
  by_cases h : (lookupSpecs db year make model trim = none ∧
      lookupWarranties db year make model trim = [] ∧
      lookupMarket db year make model trim = [] ∧
      lookupMaintenance db year make model trim = [])
  · refine ⟨⟨fun _ => h, fun _ => ?_⟩, Or.inl ?_⟩ <;>
      · unfold handleLookup
        rw [if_pos h]
  · have hsucc : handleLookup db year make model trim
        = .success (lookupSpecs db year make model trim)
            (lookupWarranties db year make model trim)
            (formatMarketValues (lookupMarket db year make model trim))
            (lookupMaintenance db year make model trim) := by
      unfold handleLookup
      rw [if_neg h]
    refine ⟨⟨fun hnf => ?_, fun hall => absurd hall h⟩, Or.inr hsucc⟩
    rw [hsucc] at hnf
    exact LookupOutcome.noConfusion hnf

/-- C7 counterexample: the VIN-seeded lookup on an empty store returns a
success payload with every category empty, not a 404 — so "all four
empty implies not-found" fails for the VIN lookup path. -/
theorem c7_counterexample_vin_all_empty_success :
    vinLookupCore emptyDb 2003 "Honda" "Accord" none
      = .success none [] [] [] ∧
    vinLookupCore emptyDb 2003 "Honda" "Accord" none ≠ .notFound := by
  decide

/-- C10: `formatMarketValues` returns an object keyed by condition —
its key list carries no duplicates, so there is at most one entry per
condition — and each condition maps to the figures of the last input
row with that condition, earlier rows being silently overwritten. -/
theorem c10_format_market_values_keyed_last_wins (vs : List MarketValueRow)
    (c : String) :
    ((formatMarketValues vs).map Prod.fst).Nodup ∧
    condLookup c (formatMarketValues vs) = (lastMatch? c vs).map figOf := by
  constructor
  · exact formatMarketValues_keys_nodup_aux vs [] (by simp)
  · unfold formatMarketValues
    rw [formatMarketValues_lookup_aux]
    cases h : lastMatch? c vs <;> rfl

/-- C8 counterexample: a POST request with invalid credentials is
answered 401 unauthorized, not 405 — the method check runs only after
authentication. -/
theorem c8_counterexample_unauthenticated_post :
    (serve ⟨false, "org_1", 10⟩ (fun _ => none) 0 .post .notFound).1
      = .unauthorized ∧
    (serve ⟨false, "org_1", 10⟩ (fun _ => none) 0 .post .notFound).1
      ≠ .methodNotAllowed ∧
    statusOf .unauthorized = 401 := by
  refine ⟨rfl, ?_, rfl⟩
  intro h
  simp [serve] at h

end VehicleIntel
